import Mathlib

/-!
# Vertex scan executor

A shallow embedding of `src/ee/executors/VertexScanExecutor.cpp`
(`VertexScanExecutor::p_init`, `VertexScanExecutor::p_execute` and
`VertexScanExecutor::outputTuple`) together with the properties stated for it.

Tables are lists of tuples in iteration order, tuples are lists of values,
C++ pointers that the code tests or dereferences are `Option`s, and every
`assert` or null dereference is an explicit `Fatal` result.  The mutable
objects `p_execute` touches (the temp output table, the scanned vertex table,
the aggregation adapter, the remote engine, standard output) are threaded
explicitly, the calls made on external collaborators being recorded in order.
-/

namespace voltdb

/-! ## Values, tuples, tables -/

/-- Modelled from the spec: the typed value of the engine (section 2;
`common/NValue.hpp` is not among the sources).  The scan itself only reads an
integer (the vertex id) and builds integers (the degrees). -/
inductive NValue where
  | null
  | integer (v : Int)
  | boolean (b : Bool)
  | varchar (s : String)
  deriving DecidableEq

/-- Parameter array handed to `p_execute`. -/
abbrev NValueArray := List NValue

/-- Modelled from the spec: a tuple is an ordered, fixed-width sequence of
typed values (section 2; `common/tabletuple.h` is not among the sources). -/
abbrev TableTuple := List NValue

/-- The ways an execution aborts: a failed `assert` or a dereferenced null
pointer. -/
inductive Fatal where
  /-- Line 48 and 92: `assert(node)` after the `dynamic_cast`. -/
  | assertNode
  /-- Line 51: `assert(isSubquery || node->getTargetGraphView())`. -/
  | assertGraphView
  /-- Line 52: `assert((! isSubquery) || (node->getChildren().size() == 1))`. -/
  | assertChildCount
  /-- Lines 220 and 297: `assert(m_tmpOutputTable)`. -/
  | assertTmpOutputTable
  /-- A null pointer is dereferenced. -/
  | nullDereference
  /-- A tuple column index outside the tuple. -/
  | columnOutOfRange
  /-- `ValuePeeker::peekInteger` on a value that is not an integer. -/
  | notAnInteger
  deriving DecidableEq

/-- Modelled from the spec: the schema of a tuple, of which the model keeps
the number of columns (`common/TupleSchema.h` is not among the sources). -/
structure TupleSchema where
  columnCount : Nat
  deriving DecidableEq

/-- Modelled from the spec: a table owns a set of tuples, iterated in order
(section 2; `storage/table.h` is not among the sources); with its name and its
schema as the source reads them. -/
structure Table where
  name : String
  schema : TupleSchema
  tuples : List TableTuple
  deriving DecidableEq

/-- Modelled from the spec: `tuple.getNValue(idx)` reads column `idx`, which
must lie inside the tuple. -/
def TableTuple.getNValue (tuple : TableTuple) (idx : Int) : Except Fatal NValue :=
  if 0 ≤ idx then
    match tuple.get? idx.toNat with
    | some v => .ok v
    | none => .error .columnOutOfRange
  else .error .columnOutOfRange

/-- Modelled from the spec: `tuple.setNValue(idx, value)` writes column `idx`
of the tuple, which must lie inside the tuple. -/
def TableTuple.setNValue (tuple : TableTuple) (idx : Int) (value : NValue) :
    Except Fatal TableTuple :=
  if 0 ≤ idx ∧ idx.toNat < tuple.length then .ok (tuple.set idx.toNat value)
  else .error .columnOutOfRange

/-- Modelled from the spec: `ValuePeeker::peekInteger` reads the integer held
by a value (the vertex id of column 0, section 4.2); `common/ValuePeeker.hpp`
is not among the sources. -/
def ValuePeeker.peekInteger (value : NValue) : Except Fatal Int :=
  match value with
  | .integer v => .ok v
  | _ => .error .notAnInteger

/-- Modelled from the spec: `ValueFactory::getIntegerValue` builds the
integer value of a degree; `common/ValueFactory.hpp` is not among the
sources. -/
def ValueFactory.getIntegerValue (v : Int) : NValue := .integer v

/-- Modelled from the spec: a value is truthy when it is the boolean true
(section 4.3, "evaluates truthy"). -/
def NValue.isTrue : NValue → Bool
  | .boolean true => true
  | _ => false

/-- Modelled from the spec: `table->tempTuple()`, the scratch tuple obtained
directly from the output table (section 4.2), one column per column of the
table's schema; `storage/temptable.h` is not among the sources. -/
def Table.tempTuple (table : Table) : TableTuple :=
  List.replicate table.schema.columnCount NValue.null

/-- Modelled from the spec: `table->insertTempTuple(tuple)` copies the tuple
into the table as a new owned row (section 4.4); `storage/temptable.h` is not
among the sources. -/
def Table.insertTempTuple (table : Table) (tuple : TableTuple) : Table :=
  { table with tuples := table.tuples ++ [tuple] }

/-- Modelled from the spec: an expression is an opaque evaluator producing a
typed value from a tuple (section 2). -/
structure AbstractExpression where
  eval : TableTuple → NValue

/-! ## Graph view -/

/-- Modelled from the spec: the vertex metadata answered by the graph view,
out-degree and in-degree (section 6; `graph/Vertex.h` is not among the
sources). -/
structure Vertex where
  fanOut : Int
  fanIn : Int
  deriving DecidableEq

/-- Modelled from the spec: the graph view owns a vertex table and answers
point lookups by vertex id, `getVertexTable() -> Table` and
`getVertex(id) -> {outDegree, inDegree}` (sections 2 and 6; `graph/GraphView.h`
is not among the sources). -/
structure GraphView where
  vertexTable : Table
  getVertex : Int → Vertex

/-! ## Plan nodes -/

/-- `ProjectionPlanNode`: declared output column expressions and the node's
output table. -/
structure ProjectionPlanNode where
  outputColumnExpressions : List AbstractExpression
  outputTable : Table

/-- `LimitPlanNode`: `getLimitAndOffsetByReference(params, limit, offset)`
resolves the pair `(limit, offset)` from the parameters. -/
structure LimitPlanNode where
  getLimitAndOffsetByReference : NValueArray → Int × Int

/-- The three inline aggregation strategies. -/
inductive AggregateKind where
  | serialAggregate
  | partialAggregate
  | hashAggregate
  deriving DecidableEq

/-- A plan node inlined in the scan, by kind: the kinds the source looks up
(projection, limit, aggregation) and any other plan node type, which
`getInlinePlanNodes()` counts as well. -/
inductive InlinePlanNode where
  | projection (node : ProjectionPlanNode)
  | limit (node : LimitPlanNode)
  | aggregate (kind : AggregateKind)
  | other (planNodeType : Nat)

/-- A child plan node, of which only the output table is used. -/
structure ChildPlanNode where
  outputTable : Table

/-- Which table object a node's output table pointer designates. -/
inductive TableRef where
  /-- The output table of child `i`. -/
  | childOutput (i : Nat)
  /-- The vertex table of the target graph view. -/
  | vertexTable
  /-- The executor's own temp table, `m_tmpOutputTable`. -/
  | tmpOutputTable
  deriving DecidableEq

/-- `VertexScanPlanNode`. -/
structure VertexScanPlanNode where
  isSubQuery : Bool
  isEmptyScan : Bool
  targetGraphView : Option GraphView
  children : List ChildPlanNode
  predicate : Option AbstractExpression
  inlinePlanNodes : List InlinePlanNode
  outputSchema : TupleSchema
  outputTable : Option TableRef

/-- The plan node handed to the executor, before the `dynamic_cast`. -/
inductive AbstractPlanNode where
  | vertexScan (node : VertexScanPlanNode)
  | other (planNodeType : Nat)

/-- `dynamic_cast<ProjectionPlanNode*>(node->getInlinePlanNode(PLAN_NODE_TYPE_PROJECTION))`. -/
def getInlineProjection : List InlinePlanNode → Option ProjectionPlanNode
  | [] => none
  | .projection p :: _ => some p
  | _ :: rest => getInlineProjection rest

/-- `dynamic_cast<LimitPlanNode*>(node->getInlinePlanNode(PLAN_NODE_TYPE_LIMIT))`. -/
def getInlineLimit : List InlinePlanNode → Option LimitPlanNode
  | [] => none
  | .limit l :: _ => some l
  | _ :: rest => getInlineLimit rest

/-- The kind of the first inline aggregation node, if any. -/
def getInlineAggregate : List InlinePlanNode → Option AggregateKind
  | [] => none
  | .aggregate k :: _ => some k
  | _ :: rest => getInlineAggregate rest

/-! ## Aggregation adapter -/

/-- The aggregation adapter bound to the scan. -/
structure AggregateExecutorBase where
  kind : AggregateKind
  deriving DecidableEq

/-- A call made on the aggregation adapter. -/
inductive AggCall where
  | p_execute_init (inputSchema : TupleSchema)
  | p_execute_tuple (tuple : TableTuple)
  | p_execute_finish
  deriving DecidableEq

/-- Modelled from the spec: `getInlineAggregateExecutor(node)` binds an
aggregation adapter iff the configuration declares inline aggregation, of
whichever strategy (section 4.1); `executors/aggregateexecutor.h` is not among
the sources. -/
def getInlineAggregateExecutor (node : VertexScanPlanNode) : Option AggregateExecutorBase :=
  (getInlineAggregate node.inlinePlanNodes).map AggregateExecutorBase.mk

/-- Modelled from the spec: the tuple returned by `p_execute_init`, a scratch
tuple shaped to the effective input schema handed to it (section 4.2);
`executors/aggregateexecutor.h` is not among the sources. -/
def AggregateExecutorBase.initTuple (_agg : AggregateExecutorBase) (inputSchema : TupleSchema) :
    TableTuple :=
  List.replicate inputSchema.columnCount NValue.null

/-! ## Counting postfilter -/

/-- Modelled from the spec: the stateful gate of section 4.3, bound to a
nullable predicate, a limit and an offset, with its two counters (matching
tuples consumed by the offset, matching tuples emitted); the class is declared
in `executors/executorutil.h`, which is not among the sources. -/
structure CountingPostfilter where
  predicate : Option AbstractExpression
  limit : Int
  offset : Int
  skipped : Int
  emitted : Int

/-- Modelled from the spec: the sentinel for an unlimited scan,
`CountingPostfilter::NO_LIMIT`; the spec fixes its role only, the model takes
the value -1, which no row count reaches. -/
def CountingPostfilter.NO_LIMIT : Int := -1

/-- Modelled from the spec: the sentinel for a scan without offset,
`CountingPostfilter::NO_OFFSET`; the spec fixes its role only, the model takes
the value -1, below every count of skipped tuples. -/
def CountingPostfilter.NO_OFFSET : Int := -1

/-- Modelled from the spec: the constructor call
`CountingPostfilter postfilter(m_tmpOutputTable, predicate, limit, offset)`;
both counters start at zero (the state is reset at the start of every
execution, section 3).  The gate of the spec counts emitted rows itself, so
the table argument is not kept. -/
def CountingPostfilter.new (_table : Option Table) (predicate : Option AbstractExpression)
    (limit offset : Int) : CountingPostfilter :=
  { predicate := predicate, limit := limit, offset := offset, skipped := 0, emitted := 0 }

/-- Modelled from the spec: `isUnderLimit()` is true while the emitted-row
counter has not reached the limit, and always true if the limit is the
unlimited sentinel (section 4.3). -/
def CountingPostfilter.isUnderLimit (pf : CountingPostfilter) : Bool :=
  pf.limit == CountingPostfilter.NO_LIMIT || decide (pf.emitted < pf.limit)

/-- Modelled from the spec: a tuple satisfies the predicate when the
predicate is absent or evaluates truthy on the tuple (section 4.3). -/
def satisfies (predicate : Option AbstractExpression) (tuple : TableTuple) : Bool :=
  match predicate with
  | none => true
  | some e => (e.eval tuple).isTrue

/-- Modelled from the spec: `eval(tuple)` (section 4.3).  The predicate is
evaluated first; a tuple failing it consumes no budget.  The first `offset`
matching tuples are counted and not emitted; each later matching tuple is
emitted and counts toward the limit.  Returns the verdict and the updated
gate. -/
def CountingPostfilter.eval (pf : CountingPostfilter) (tuple : TableTuple) :
    Bool × CountingPostfilter :=
  if satisfies pf.predicate tuple then
    if pf.skipped < pf.offset then (false, { pf with skipped := pf.skipped + 1 })
    else (true, { pf with emitted := pf.emitted + 1 })
  else (false, pf)

/-! ## Engine and executor -/

/-- A remote attribute fetch issued through the engine. -/
inductive RemoteCall where
  | getVertexAttributesFromClusterNode (destinationID : Int) (vertexIDs : List Int)
      (vertexAttrNames : List String)
  | getEdgeAttributesFromClusterNode (destinationID : Int) (edgeIDs : List Int)
      (edgeAttrNames : List String)
  deriving DecidableEq

/-- What is written to standard output. -/
inductive Printed where
  | text (s : String)
  | tableDebug (t : Table)
  deriving DecidableEq

/-- The engine context as `p_execute` uses it: the site identity and the two
remote fetches, each answering a table or a null pointer. -/
structure VoltDBEngine where
  getSiteId : Int
  getVertexAttributesFromClusterNode : Int → List Int → List String → GraphView → Option Table
  getEdgeAttributesFromClusterNode : Int → List Int → List String → GraphView → Option Table

/-- Opaque limits handed through to the temp table allocation. -/
structure TempTableLimits where
  memoryLimit : Int

/-- The executor object. -/
structure VertexScanExecutor where
  m_engine : VoltDBEngine
  m_abstractNode : AbstractPlanNode
  m_tmpOutputTable : Option Table
  m_aggExec : Option AggregateExecutorBase

/-- Modelled from the spec: `setTempOutputTable(limits, name)` allocates a new
temp output table whose schema matches the declared output schema, named as
given, and makes it the node's output table (section 4.1); the method belongs
to the executor base class, which is not among the sources. -/
def VertexScanExecutor.setTempOutputTable (self : VertexScanExecutor) (node : VertexScanPlanNode)
    (_limits : TempTableLimits) (name : String) : VertexScanExecutor :=
  { self with
    m_tmpOutputTable := some { name := name, schema := node.outputSchema, tuples := [] }
    m_abstractNode := .vertexScan { node with outputTable := some .tmpOutputTable } }

/-- `VertexScanExecutor::p_init` (lines 42-87).  The executor's
`m_abstractNode` designates the very node object `p_init` writes to, so the
returned executor carries the node with its output table set. -/
def VertexScanExecutor.p_init (self : VertexScanExecutor) (abstractNode : AbstractPlanNode)
    (limits : TempTableLimits) : Except Fatal VertexScanExecutor :=
  match abstractNode with
  | .other _ => .error .assertNode
  | .vertexScan node =>
    let isSubquery := node.isSubQuery
    if !(isSubquery || node.targetGraphView.isSome) then .error .assertGraphView
    else if !(!isSubquery || node.children.length == 1) then .error .assertChildCount
    else
      let graphView := node.targetGraphView
      let source : Option (Table × TableRef) :=
        if isSubquery then (node.children.get? 0).map (fun c => (c.outputTable, TableRef.childOutput 0))
        else graphView.map (fun g => (g.vertexTable, TableRef.vertexTable))
      match source with
      | none => .error .nullDereference
      | some (table, ref) =>
        let bound : VertexScanExecutor :=
          if node.predicate.isSome || decide (node.inlinePlanNodes.length > 0) then
            self.setTempOutputTable node limits table.name
          else
            { self with m_abstractNode := .vertexScan { node with outputTable := some ref } }
        .ok { bound with m_aggExec := getInlineAggregateExecutor node }

/-- What one execution did besides updating the executor: the remote fetches
issued, what was printed, whether an iterator was opened on the input table,
the tuples pulled from it and the calls made on the aggregation adapter, each
in order. -/
structure Trace where
  remoteCalls : List RemoteCall
  printed : List Printed
  iteratorOpened : Bool
  visited : List TableTuple
  aggCalls : List AggCall

/-- The trace of an execution that did nothing. -/
def Trace.empty : Trace :=
  { remoteCalls := [], printed := [], iteratorOpened := false, visited := [], aggCalls := [] }

/-- A completed execution (`p_execute` returned true): the executor
afterwards and the trace. -/
structure Execution where
  executor : VertexScanExecutor
  trace : Trace

/-- Lines 121-160: the remote fetches made on site 0.  The second test reads
`out1`, as the source does, so `out2->debug()` is reached with `out2` null
when only the edge fetch fails. -/
def remoteFetch (m_engine : VoltDBEngine) (graphView : GraphView) :
    Except Fatal (List RemoteCall × List Printed) :=
  if m_engine.getSiteId = 0 then
    let hostID : Int := 1
    let destinationID : Int := (1 <<< 32 : Nat) + hostID
    let vertexIDs : List Int := (List.range 3).map (fun i => (i : Int) * 2)
    let vertexAttrNames : List String := []
    let edgeIDs : List Int := (List.range 3).map (fun i => (i : Int))
    let edgeAttrNamtes : List String := []
    let calls := [RemoteCall.getVertexAttributesFromClusterNode destinationID vertexIDs vertexAttrNames,
                  RemoteCall.getEdgeAttributesFromClusterNode destinationID edgeIDs edgeAttrNamtes]
    let out1 := m_engine.getVertexAttributesFromClusterNode destinationID vertexIDs vertexAttrNames graphView
    let out2 := m_engine.getEdgeAttributesFromClusterNode destinationID edgeIDs edgeAttrNamtes graphView
    match out1 with
    | none => .ok (calls, [Printed.text "table 1 fails.", Printed.text "table 2 fails."])
    | some t1 =>
      match out2 with
      | none => .error .nullDereference
      | some t2 => .ok (calls, [Printed.tableDebug t1, Printed.tableDebug t2])
  else .ok ([], [])

/-- The mutable state of the row loop. -/
structure ScanState where
  postfilter : CountingPostfilter
  temp_tuple : TableTuple
  m_tmpOutputTable : Option Table
  aggCalls : List AggCall
  visited : List TableTuple
  unread : List TableTuple

/-- `VertexScanExecutor::outputTuple` (lines 288-299). -/
def outputTuple (m_aggExec : Option AggregateExecutorBase) (st : ScanState) (tuple : TableTuple) :
    Except Fatal ScanState :=
  match m_aggExec with
  | some _ => .ok { st with aggCalls := st.aggCalls ++ [AggCall.p_execute_tuple tuple] }
  | none =>
    match st.m_tmpOutputTable with
    | none => .error .assertTmpOutputTable
    | some table => .ok { st with m_tmpOutputTable := some (table.insertTempTuple tuple) }

/-- Lines 256-259: the loop `for (ctr = 0; ctr < num_of_columns - 2; ctr++)`,
with `n` iterations left and `ctr` the current counter. -/
def projectColumns (exprs : List AbstractExpression) (tuple : TableTuple) :
    Nat → Nat → TableTuple → Except Fatal TableTuple
  | 0, _, temp_tuple => .ok temp_tuple
  | n + 1, ctr, temp_tuple =>
    match exprs.get? ctr with
    | none => .error .nullDereference
    | some e =>
      match TableTuple.setNValue temp_tuple ctr (e.eval tuple) with
      | .error err => .error err
      | .ok temp_tuple1 => projectColumns exprs tuple n (ctr + 1) temp_tuple1

/-- Lines 252-262: the inline projection of one qualifying tuple into the
scratch tuple. -/
def projectTuple (graphView : GraphView) (projection_node : ProjectionPlanNode)
    (num_of_columns : Int) (tuple temp_tuple : TableTuple) : Except Fatal TableTuple :=
  match TableTuple.getNValue tuple 0 with
  | .error err => .error err
  | .ok idValue =>
    match ValuePeeker.peekInteger idValue with
    | .error err => .error err
    | .ok vertexId =>
      let fanOut := (graphView.getVertex vertexId).fanOut
      let fanIn := (graphView.getVertex vertexId).fanIn
      match projectColumns projection_node.outputColumnExpressions tuple
          (num_of_columns - 2).toNat 0 temp_tuple with
      | .error err => .error err
      | .ok temp1 =>
        match TableTuple.setNValue temp1 (num_of_columns - 2) (ValueFactory.getIntegerValue fanOut) with
        | .error err => .error err
        | .ok temp2 =>
          TableTuple.setNValue temp2 (num_of_columns - 1) (ValueFactory.getIntegerValue fanIn)

/-- Lines 248-269: a qualifying tuple is projected into the scratch tuple when
an inline projection is present, and the projected (else the raw) tuple is
handed to `outputTuple`. -/
def deliver (graphView : GraphView) (projection_node : Option ProjectionPlanNode)
    (num_of_columns : Int) (m_aggExec : Option AggregateExecutorBase) (st : ScanState)
    (tuple : TableTuple) : Except Fatal ScanState :=
  match projection_node with
  | some projection =>
    match projectTuple graphView projection num_of_columns tuple st.temp_tuple with
    | .error err => .error err
    | .ok temp_tuple => outputTuple m_aggExec { st with temp_tuple := temp_tuple } temp_tuple
  | none => outputTuple m_aggExec st tuple

/-- Lines 232-273: the row loop
`while (postfilter.isUnderLimit() && iterator.next(tuple))` over the tuples
the iterator has not yielded yet. -/
def scanLoop (graphView : GraphView) (projection_node : Option ProjectionPlanNode)
    (num_of_columns : Int) (m_aggExec : Option AggregateExecutorBase) :
    List TableTuple → ScanState → Except Fatal ScanState
  | [], st => .ok st
  | tuple :: rest, st =>
    if st.postfilter.isUnderLimit then
      let verdict := st.postfilter.eval tuple
      let st1 : ScanState :=
        { st with postfilter := verdict.2, visited := st.visited ++ [tuple], unread := rest }
      if verdict.1 then
        match deliver graphView projection_node num_of_columns m_aggExec st1 tuple with
        | .error err => .error err
        | .ok st2 => scanLoop graphView projection_node num_of_columns m_aggExec rest st2
      else scanLoop graphView projection_node num_of_columns m_aggExec rest st1
    else .ok st

/-- Line 193: the test guarding the row loop. -/
def generalPath (node : VertexScanPlanNode) (m_aggExec : Option AggregateExecutorBase) : Bool :=
  node.predicate.isSome || (getInlineProjection node.inlinePlanNodes).isSome ||
    (getInlineLimit node.inlinePlanNodes).isSome || m_aggExec.isSome

/-- Modelled from the spec: the iterator of `iteratorDeletingAsWeGo()` removes
each tuple from the source as it is yielded (section 4.2), so after the loop
the input table holds the tuples not yet yielded; `storage/table.h` is not
among the sources. -/
def drainedTo (node : VertexScanPlanNode) (graphView : GraphView)
    (unread : List TableTuple) : AbstractPlanNode :=
  .vertexScan { node with
    targetGraphView := some { graphView with
      vertexTable := { graphView.vertexTable with tuples := unread } } }

/-- `VertexScanExecutor::p_execute` (lines 89-286); `.ok` is the return
value true.  A graph view always owns its vertex table here, so
`assert(input_table)` holds once the graph view pointer is dereferenced; the
progress monitor and the trace macros have no effect on what is modelled. -/
def VertexScanExecutor.p_execute (self : VertexScanExecutor) (params : NValueArray) :
    Except Fatal Execution :=
  match self.m_abstractNode with
  | .other _ => .error .assertNode
  | .vertexScan node =>
    if node.isEmptyScan then .ok { executor := self, trace := Trace.empty }
    else
      match node.targetGraphView with
      | none => .error .nullDereference
      | some graphView =>
        let input_table := graphView.vertexTable
        match remoteFetch self.m_engine graphView with
        | .error err => .error err
        | .ok (remoteCalls, printed) =>
          let projection_node := getInlineProjection node.inlinePlanNodes
          let num_of_columns : Int :=
            match projection_node with
            | some projection => projection.outputColumnExpressions.length
            | none => -1
          let limit_node := getInlineLimit node.inlinePlanNodes
          if generalPath node self.m_aggExec then
            let predicate := node.predicate
            let limitOffset : Int × Int :=
              match limit_node with
              | some l => l.getLimitAndOffsetByReference params
              | none => (CountingPostfilter.NO_LIMIT, CountingPostfilter.NO_OFFSET)
            let postfilter :=
              CountingPostfilter.new self.m_tmpOutputTable predicate limitOffset.1 limitOffset.2
            match self.m_tmpOutputTable with
            | none => .error .assertTmpOutputTable
            | some tmp =>
              let inputSchema : TupleSchema :=
                match projection_node with
                | some projection => projection.outputTable.schema
                | none => input_table.schema
              let start : ScanState :=
                match self.m_aggExec with
                | some agg =>
                  { postfilter := postfilter, temp_tuple := agg.initTuple inputSchema,
                    m_tmpOutputTable := some tmp, aggCalls := [AggCall.p_execute_init inputSchema],
                    visited := [], unread := input_table.tuples }
                | none =>
                  { postfilter := postfilter, temp_tuple := tmp.tempTuple,
                    m_tmpOutputTable := some tmp, aggCalls := [],
                    visited := [], unread := input_table.tuples }
              match scanLoop graphView projection_node num_of_columns self.m_aggExec
                  input_table.tuples start with
              | .error err => .error err
              | .ok st =>
                let aggCalls :=
                  match self.m_aggExec with
                  | some _ => st.aggCalls ++ [AggCall.p_execute_finish]
                  | none => st.aggCalls
                .ok { executor := { self with
                        m_tmpOutputTable := st.m_tmpOutputTable
                        m_abstractNode := drainedTo node graphView st.unread }
                      trace := { remoteCalls := remoteCalls, printed := printed,
                                 iteratorOpened := true, visited := st.visited,
                                 aggCalls := aggCalls } }
          else
            .ok { executor := self
                  trace := { remoteCalls := remoteCalls, printed := printed,
                             iteratorOpened := false, visited := [], aggCalls := [] } }

/-! ## Reference functions used to state the properties -/

/-- Number of leading elements of a sequence a reader consumes when it reads
on until `o + l` elements satisfying `p` have been read (to the end when
there are fewer, or without a limit), and reads nothing when `l` is zero. -/
def pulled {α : Type} (p : α → Bool) : Nat → Option Nat → List α → Nat
  | _, _, [] => 0
  | o, l, t :: rest =>
    if l = some 0 then 0
    else if p t then
      (if 0 < o then pulled p (o - 1) l rest else pulled p 0 (l.map (fun n => n - 1)) rest) + 1
    else pulled p o l rest + 1

/-- The source table of a scan as `p_init` resolves it: the single child's
output table in subquery mode, the graph's vertex table otherwise. -/
def sourceTable (node : VertexScanPlanNode) : Option Table :=
  if node.isSubQuery then (node.children.get? 0).map (fun c => c.outputTable)
  else node.targetGraphView.map (fun g => g.vertexTable)

/-- Which table object the source table is. -/
def sourceRef (node : VertexScanPlanNode) : TableRef :=
  if node.isSubQuery then TableRef.childOutput 0 else TableRef.vertexTable

/-- The table a scan node's output table pointer designates, looked up in the
executor that owns the node. -/
def VertexScanExecutor.resolveOutputTable (self : VertexScanExecutor) : Option Table :=
  match self.m_abstractNode with
  | .other _ => none
  | .vertexScan node =>
    match node.outputTable with
    | none => none
    | some (.childOutput i) => (node.children.get? i).map (fun c => c.outputTable)
    | some .vertexTable => node.targetGraphView.map (fun g => g.vertexTable)
    | some .tmpOutputTable => self.m_tmpOutputTable

/-- The executor `p_init` returns for a scan node that passes its assertions,
given the source table. -/
def initialised (self : VertexScanExecutor) (node : VertexScanPlanNode) (limits : TempTableLimits)
    (source : Table) : VertexScanExecutor :=
  { (if node.predicate.isSome || decide (node.inlinePlanNodes.length > 0) then
      self.setTempOutputTable node limits source.name
    else
      { self with m_abstractNode := .vertexScan { node with outputTable := some (sourceRef node) } })
    with m_aggExec := getInlineAggregateExecutor node }

/-! ## Reading an execution -/

/-- The executor as constructed, before `p_init`: no temp table, no adapter. -/
def VertexScanExecutor.fresh (engine : VoltDBEngine) (abstractNode : AbstractPlanNode) :
    VertexScanExecutor :=
  { m_engine := engine, m_abstractNode := abstractNode, m_tmpOutputTable := none,
    m_aggExec := none }

/-- A vertex table of five rows with ids 0, 2, 4, 6, 8. -/
def exampleVertexTable : Table :=
  { name := "VERTEX", schema := { columnCount := 1 },
    tuples := [[.integer 0], [.integer 2], [.integer 4], [.integer 6], [.integer 8]] }

/-- A graph view over the example table; vertex `v` has out-degree `v + 1`
and in-degree `v + 2`. -/
def exampleGraph : GraphView :=
  { vertexTable := exampleVertexTable
    getVertex := fun v => { fanOut := v + 1, fanIn := v + 2 } }

/-- The predicate "id ≥ 4" on column 0. -/
def idAtLeast4 : AbstractExpression :=
  { eval := fun t =>
      match t with
      | .integer v :: _ => .boolean (decide (4 ≤ v))
      | _ => .null }

/-- An expression with a constant integer value. -/
def constantExpr (v : Int) : AbstractExpression := { eval := fun _ => .integer v }

/-- An engine on a site other than the coordinator. -/
def localEngine : VoltDBEngine :=
  { getSiteId := 1
    getVertexAttributesFromClusterNode := fun _ _ _ _ => none
    getEdgeAttributesFromClusterNode := fun _ _ _ _ => none }

/-- The engine of the coordinator site (site id 0), each remote fetch
succeeding or failing as told. -/
def coordinatorEngine (vertexFetchOk edgeFetchOk : Bool) : VoltDBEngine :=
  { getSiteId := 0
    getVertexAttributesFromClusterNode := fun _ _ _ _ =>
      if vertexFetchOk then some { name := "vertexAttributes", schema := { columnCount := 0 },
                                   tuples := [] } else none
    getEdgeAttributesFromClusterNode := fun _ _ _ _ =>
      if edgeFetchOk then some { name := "edgeAttributes", schema := { columnCount := 0 },
                                 tuples := [] } else none }

/-- A scan of the example graph with the given predicate and inline nodes,
whose output schema has `columns` columns. -/
def exampleNode (predicate : Option AbstractExpression) (inline : List InlinePlanNode)
    (columns : Nat) : VertexScanPlanNode :=
  { isSubQuery := false, isEmptyScan := false, targetGraphView := some exampleGraph,
    children := [], predicate := predicate, inlinePlanNodes := inline,
    outputSchema := { columnCount := columns }, outputTable := none }

/-- An inline limit node resolving to the given limit and offset. -/
def limitNode (limit offset : Int) : InlinePlanNode :=
  .limit { getLimitAndOffsetByReference := fun _ => (limit, offset) }

/-- An inline projection declaring three constant output expressions. -/
def exampleProjection : ProjectionPlanNode :=
  { outputColumnExpressions := [constantExpr 70, constantExpr 80, constantExpr 90]
    outputTable := { name := "PROJECTION", schema := { columnCount := 3 }, tuples := [] } }

/-- An initialised executor for a scan node: its temp table allocated and
empty, its adapter as given. -/
def exampleExecutor (engine : VoltDBEngine) (node : VertexScanPlanNode)
    (m_aggExec : Option AggregateExecutorBase) : VertexScanExecutor :=
  { m_engine := engine, m_abstractNode := .vertexScan node,
    m_tmpOutputTable := some { name := "VERTEX", schema := node.outputSchema, tuples := [] },
    m_aggExec := m_aggExec }

/-! # Theorems -/

/-! ## The counting postfilter -/

theorem pulled_unlimited {α : Type} (p : α → Bool) (xs : List α) :
    ∀ o, pulled p o none xs = xs.length := by
  induction xs with
  | nil => intro o; simp [pulled]
  | cons t rest ih =>
    intro o
    by_cases hp : p t = true <;> by_cases ho : 0 < o <;> simp [pulled, hp, ho, ih]

theorem p_init_ok (self : VertexScanExecutor) (node : VertexScanPlanNode)
    (limits : TempTableLimits)
    (h1 : node.isSubQuery = true ∨ node.targetGraphView.isSome = true)
    (h2 : node.isSubQuery = false ∨ node.children.length = 1) :
    ∃ source, sourceTable node = some source ∧
      self.p_init (.vertexScan node) limits = .ok (initialised self node limits source) := by
  cases hsub : node.isSubQuery with
  | true =>
    have hlen : node.children.length = 1 := by
      rcases h2 with h | h
      · rw [hsub] at h; exact absurd h (by decide)
      · exact h
    obtain ⟨c, hc⟩ : ∃ c, node.children = [c] := List.length_eq_one.1 hlen
    refine ⟨c.outputTable, by simp [sourceTable, hsub, hc], ?_⟩
    simp [VertexScanExecutor.p_init, initialised, sourceRef, hsub, hc]
  | false =>
    have hgv : node.targetGraphView.isSome = true := by
      rcases h1 with h | h
      · rw [hsub] at h; exact absurd h (by decide)
      · exact h
    obtain ⟨g, hg⟩ := Option.isSome_iff_exists.1 hgv
    refine ⟨g.vertexTable, by simp [sourceTable, hsub, hg], ?_⟩
    simp [VertexScanExecutor.p_init, initialised, sourceRef, hsub, hg]

theorem p_init_assertGraphView (self : VertexScanExecutor) (node : VertexScanPlanNode)
    (limits : TempTableLimits) (hsub : node.isSubQuery = false)
    (hgv : node.targetGraphView = none) :
    self.p_init (.vertexScan node) limits = .error .assertGraphView := by
  simp [VertexScanExecutor.p_init, hsub, hgv]

theorem p_init_assertChildCount (self : VertexScanExecutor) (node : VertexScanPlanNode)
    (limits : TempTableLimits) (hsub : node.isSubQuery = true)
    (hlen : node.children.length ≠ 1) :
    self.p_init (.vertexScan node) limits = .error .assertChildCount := by
  simp [VertexScanExecutor.p_init, hsub, hlen]

theorem p_init_ok_inv (self : VertexScanExecutor) (abstractNode : AbstractPlanNode)
    (limits : TempTableLimits) (ex : VertexScanExecutor)
    (h : self.p_init abstractNode limits = .ok ex) :
    ∃ node source, abstractNode = .vertexScan node ∧ sourceTable node = some source ∧
      ex = initialised self node limits source := by
  cases abstractNode with
  | other k => simp [VertexScanExecutor.p_init] at h
  | vertexScan node =>
    by_cases h1 : node.isSubQuery = false ∧ node.targetGraphView = none
    · rw [p_init_assertGraphView self node limits h1.1 h1.2] at h
      cases h
    · by_cases h2 : node.isSubQuery = true ∧ node.children.length ≠ 1
      · rw [p_init_assertChildCount self node limits h2.1 h2.2] at h
        cases h
      · have a1 : node.isSubQuery = true ∨ node.targetGraphView.isSome = true := by
          cases hs : node.isSubQuery with
          | true => exact Or.inl rfl
          | false =>
            right
            cases hg : node.targetGraphView with
            | none => exact absurd ⟨hs, hg⟩ h1
            | some g => rfl
        have a2 : node.isSubQuery = false ∨ node.children.length = 1 := by
          cases hs : node.isSubQuery with
          | false => exact Or.inl rfl
          | true =>
            right
            by_contra hc
            exact h2 ⟨hs, hc⟩
        obtain ⟨source, hsrc, hok⟩ := p_init_ok self node limits a1 a2
        rw [hok] at h
        exact ⟨node, source, rfl, hsrc, (Except.ok.inj h).symm⟩

/-! ## The temp table assertions -/

theorem setNValue_error (t : TableTuple) (idx : Int) (v : NValue) (e : Fatal)
    (h : TableTuple.setNValue t idx v = .error e) : e ≠ .assertTmpOutputTable := by
  unfold TableTuple.setNValue at h
  split at h
  · cases h
  · cases h
    decide

theorem projectColumns_error (exprs : List AbstractExpression) (tuple : TableTuple) (n : Nat) :
    ∀ (ctr : Nat) (temp : TableTuple) (e : Fatal),
      projectColumns exprs tuple n ctr temp = .error e → e ≠ .assertTmpOutputTable := by
  induction n with
  | zero => intro ctr temp e h; simp [projectColumns] at h
  | succ n ih =>
    intro ctr temp e h
    unfold projectColumns at h
    cases hg : exprs.get? ctr with
    | none =>
      rw [hg] at h
      cases h
      decide
    | some x =>
      rw [hg] at h
      cases hs : TableTuple.setNValue temp ctr (x.eval tuple) with
      | error e1 =>
        have h2 : Except.error e1 = (Except.error e : Except Fatal TableTuple) := by
          simpa only [hs] using h
        cases h2
        exact setNValue_error _ _ _ _ hs
      | ok temp1 =>
        have h2 : projectColumns exprs tuple n (ctr + 1) temp1 = .error e := by
          simpa only [hs] using h
        exact ih _ _ _ h2

theorem projectTuple_error (graphView : GraphView) (projection : ProjectionPlanNode)
    (num_of_columns : Int) (tuple temp : TableTuple) (e : Fatal)
    (h : projectTuple graphView projection num_of_columns tuple temp = .error e) :
    e ≠ .assertTmpOutputTable := by
  unfold projectTuple at h
  cases hg : TableTuple.getNValue tuple 0 with
  | error e1 =>
    rw [hg] at h
    cases h
    unfold TableTuple.getNValue at hg
    split at hg
    · split at hg
      · cases hg
      · cases hg
        decide
    · cases hg
      decide
  | ok idValue =>
    cases hp : ValuePeeker.peekInteger idValue with
    | error e1 =>
      have h2 : Except.error e1 = (Except.error e : Except Fatal TableTuple) := by
        simpa only [hg, hp] using h
      cases h2
      cases idValue <;> simp [ValuePeeker.peekInteger] at hp <;> subst hp <;> decide
    | ok vertexId =>
      cases hc : projectColumns projection.outputColumnExpressions tuple
          (num_of_columns - 2).toNat 0 temp with
      | error e1 =>
        have h2 : Except.error e1 = (Except.error e : Except Fatal TableTuple) := by
          simpa only [hg, hp, hc] using h
        cases h2
        exact projectColumns_error _ _ _ _ _ _ hc
      | ok temp1 =>
        cases hs : TableTuple.setNValue temp1 (num_of_columns - 2)
            (ValueFactory.getIntegerValue (graphView.getVertex vertexId).fanOut) with
        | error e1 =>
          have h2 : Except.error e1 = (Except.error e : Except Fatal TableTuple) := by
            simpa only [hg, hp, hc, hs] using h
          cases h2
          exact setNValue_error _ _ _ _ hs
        | ok temp2 =>
          have h2 : TableTuple.setNValue temp2 (num_of_columns - 1)
              (ValueFactory.getIntegerValue (graphView.getVertex vertexId).fanIn) =
                .error e := by
            simpa only [hg, hp, hc, hs] using h
          exact setNValue_error _ _ _ _ h2

theorem outputTuple_table (m_aggExec : Option AggregateExecutorBase) (st : ScanState)
    (tuple : TableTuple) (h : st.m_tmpOutputTable.isSome = true) :
    ∃ st2, outputTuple m_aggExec st tuple = .ok st2 ∧ st2.m_tmpOutputTable.isSome = true := by
  obtain ⟨tbl, htbl⟩ := Option.isSome_iff_exists.1 h
  cases m_aggExec with
  | some agg =>
    exact ⟨{ st with aggCalls := st.aggCalls ++ [AggCall.p_execute_tuple tuple] }, rfl, h⟩
  | none =>
    refine ⟨{ st with m_tmpOutputTable := some (tbl.insertTempTuple tuple) }, ?_, rfl⟩
    simp [outputTuple, htbl]

theorem deliver_table (graphView : GraphView) (projection_node : Option ProjectionPlanNode)
    (num_of_columns : Int) (m_aggExec : Option AggregateExecutorBase) (st : ScanState)
    (tuple : TableTuple) (h : st.m_tmpOutputTable.isSome = true) :
    (∀ e, deliver graphView projection_node num_of_columns m_aggExec st tuple = .error e →
      e ≠ .assertTmpOutputTable) ∧
    (∀ st2, deliver graphView projection_node num_of_columns m_aggExec st tuple = .ok st2 →
      st2.m_tmpOutputTable.isSome = true) := by
  cases projection_node with
  | none =>
    obtain ⟨st3, h3, h4⟩ := outputTuple_table m_aggExec st tuple h
    simp only [deliver, h3]
    refine ⟨fun e he => ?_, fun st2 he => ?_⟩
    · cases he
    · cases he
      exact h4
  | some projection =>
    cases hp : projectTuple graphView projection num_of_columns tuple st.temp_tuple with
    | error e1 =>
      simp only [deliver, hp]
      refine ⟨fun e he => ?_, fun st2 he => ?_⟩
      · cases he
        exact projectTuple_error _ _ _ _ _ _ hp
      · cases he
    | ok temp =>
      obtain ⟨st3, h3, h4⟩ := outputTuple_table m_aggExec { st with temp_tuple := temp } temp h
      simp only [deliver, hp, h3]
      refine ⟨fun e he => ?_, fun st2 he => ?_⟩
      · cases he
      · cases he
        exact h4

theorem scanLoop_error (graphView : GraphView) (projection_node : Option ProjectionPlanNode)
    (num_of_columns : Int) (m_aggExec : Option AggregateExecutorBase) (src : List TableTuple) :
    ∀ (st : ScanState) (e : Fatal), st.m_tmpOutputTable.isSome = true →
      scanLoop graphView projection_node num_of_columns m_aggExec src st = .error e →
      e ≠ .assertTmpOutputTable := by
  induction src with
  | nil => intro st e _ h; simp [scanLoop] at h
  | cons t rest ih =>
    intro st e hst h
    unfold scanLoop at h
    by_cases hlim : st.postfilter.isUnderLimit = true
    · simp only [hlim, if_true] at h
      by_cases hv : (st.postfilter.eval t).1 = true
      · simp only [hv, if_true] at h
        obtain ⟨hde, hdo⟩ := deliver_table graphView projection_node num_of_columns m_aggExec
          { st with postfilter := (st.postfilter.eval t).2, visited := st.visited ++ [t],
                    unread := rest } t hst
        cases hd : deliver graphView projection_node num_of_columns m_aggExec
            { st with postfilter := (st.postfilter.eval t).2, visited := st.visited ++ [t],
                      unread := rest } t with
        | error e1 =>
          rw [hd] at h
          cases h
          exact hde _ hd
        | ok st2 =>
          rw [hd] at h
          exact ih st2 e (hdo _ hd) h
      · simp only [hv, Bool.false_eq_true, if_false] at h
        exact ih { st with postfilter := (st.postfilter.eval t).2, visited := st.visited ++ [t],
                           unread := rest } e hst h
    · simp only [hlim, Bool.false_eq_true, if_false] at h
      cases h

theorem remoteFetch_error (m_engine : VoltDBEngine) (graphView : GraphView) (e : Fatal)
    (h : remoteFetch m_engine graphView = .error e) : e ≠ .assertTmpOutputTable := by
  unfold remoteFetch at h
  split at h
  · simp only at h
    split at h
    · cases h
    · split at h
      · cases h
        decide
      · cases h
  · cases h

theorem p_execute_error (self : VertexScanExecutor) (params : NValueArray)
    (h : ∀ node, self.m_abstractNode = .vertexScan node →
      generalPath node self.m_aggExec = true → self.m_tmpOutputTable.isSome = true) :
    self.p_execute params ≠ .error .assertTmpOutputTable := by
  intro herr
  unfold VertexScanExecutor.p_execute at herr
  cases hn : self.m_abstractNode with
  | other k =>
    rw [hn] at herr
    cases herr
  | vertexScan node =>
    rw [hn] at herr
    simp only at herr
    by_cases hflag : node.isEmptyScan = true
    · simp [hflag] at herr
    · simp only [hflag, Bool.false_eq_true, if_false] at herr
      cases hgv : node.targetGraphView with
      | none =>
        rw [hgv] at herr
        cases herr
      | some graphView =>
        rw [hgv] at herr
        simp only at herr
        cases hf : remoteFetch self.m_engine graphView with
        | error e1 =>
          rw [hf] at herr
          simp only at herr
          cases herr
          exact remoteFetch_error _ _ _ hf rfl
        | ok r =>
          obtain ⟨calls, printed⟩ := r
          rw [hf] at herr
          simp only at herr
          by_cases hpath : generalPath node self.m_aggExec = true
          · obtain ⟨tmp, htmp⟩ := Option.isSome_iff_exists.1 (h node hn hpath)
            simp only [hpath, if_true, htmp] at herr
            split at herr
            · rename_i e1 hloop
              cases herr
              refine scanLoop_error _ _ _ _ _ _ _ ?_ hloop rfl
              cases self.m_aggExec <;> rfl
            · cases herr
          · simp only [hpath, Bool.false_eq_true, if_false] at herr
            cases herr

/-! ## Claims -/

/-- Claim C5: for every scan configuration flagged as an empty scan (whatever
its predicate, inline nodes, adapter and site identity), `p_execute` returns
true with the executor, hence the output table and every table it refers to,
exactly as before the call, having opened no iterator, pulled no tuple, made no
remote fetch and no adapter call. -/
theorem p_execute_emptyScan (self : VertexScanExecutor) (params : NValueArray)
    (node : VertexScanPlanNode)
    (hnode : self.m_abstractNode = .vertexScan node)
    (hflag : node.isEmptyScan = true) :
    ∃ exec, self.p_execute params = .ok exec ∧ exec.executor = self ∧
      exec.trace.iteratorOpened = false ∧ exec.trace.visited = [] ∧
      exec.trace.remoteCalls = [] ∧ exec.trace.aggCalls = [] ∧ exec.trace.printed = [] := by
  refine ⟨{ executor := self, trace := Trace.empty }, ?_, rfl, rfl, rfl, rfl, rfl, rfl⟩
  simp [VertexScanExecutor.p_execute, hnode, hflag]

/-- Witness for C5: an empty-flagged scan with a predicate, a limit, a
projection and an aggregation, run on the coordinator site with a failing edge
fetch. -/
theorem p_execute_emptyScan_witness :
    ∃ exec,
      (exampleExecutor (coordinatorEngine true false)
        { exampleNode (some idAtLeast4)
            [limitNode 1 1, .projection exampleProjection, .aggregate .hashAggregate] 3 with
          isEmptyScan := true }
        (some { kind := .hashAggregate })).p_execute [] = .ok exec ∧
      exec.trace.iteratorOpened = false ∧ exec.trace.visited = [] ∧
      exec.trace.remoteCalls = [] ∧ exec.trace.aggCalls = [] :=
  let ⟨exec, h, _, h1, h2, h3, h4, _⟩ := p_execute_emptyScan
    (exampleExecutor (coordinatorEngine true false)
      { exampleNode (some idAtLeast4)
          [limitNode 1 1, .projection exampleProjection, .aggregate .hashAggregate] 3 with
        isEmptyScan := true }
      (some { kind := .hashAggregate })) [] _ rfl rfl
  ⟨exec, h, h1, h2, h3, h4⟩

/-- Claim C7: `p_init` fails fatally when the plan node is not a vertex-scan
node, when the scan is not in subquery mode and no graph view is bound, and
when it is in subquery mode with a number of children other than one; for
every other configuration it returns true with the output table bound: a
fresh, empty temp table named after the source table and shaped to the
declared output schema when a predicate or any inline node is present, the
alias of the source table (no temp table allocated) otherwise. -/
theorem p_init_outcomes (self : VertexScanExecutor) (limits : TempTableLimits) :
    (∀ k, self.p_init (.other k) limits = .error .assertNode) ∧
    (∀ node, node.isSubQuery = false → node.targetGraphView = none →
      self.p_init (.vertexScan node) limits = .error .assertGraphView) ∧
    (∀ node, node.isSubQuery = true → node.children.length ≠ 1 →
      self.p_init (.vertexScan node) limits = .error .assertChildCount) ∧
    (∀ node, (node.isSubQuery = true ∨ node.targetGraphView.isSome = true) →
      (node.isSubQuery = false ∨ node.children.length = 1) →
      ∃ ex source, sourceTable node = some source ∧
        self.p_init (.vertexScan node) limits = .ok ex ∧
        ex.m_aggExec = getInlineAggregateExecutor node ∧ ex.m_engine = self.m_engine ∧
        (node.predicate.isSome = true ∨ node.inlinePlanNodes ≠ [] →
          ex.m_tmpOutputTable =
            some { name := source.name, schema := node.outputSchema, tuples := [] } ∧
          ex.m_abstractNode = .vertexScan { node with outputTable := some .tmpOutputTable } ∧
          ex.resolveOutputTable = ex.m_tmpOutputTable) ∧
        (node.predicate = none ∧ node.inlinePlanNodes = [] →
          ex.m_tmpOutputTable = self.m_tmpOutputTable ∧
          ex.m_abstractNode = .vertexScan { node with outputTable := some (sourceRef node) } ∧
          ex.resolveOutputTable = some source)) := by
  refine ⟨fun k => rfl, fun node h1 h2 => p_init_assertGraphView self node limits h1 h2,
    fun node h1 h2 => p_init_assertChildCount self node limits h1 h2, fun node h1 h2 => ?_⟩
  obtain ⟨source, hsrc, hok⟩ := p_init_ok self node limits h1 h2
  refine ⟨_, source, hsrc, hok, rfl, ?_, ?_, ?_⟩
  · unfold initialised
    split <;> rfl
  · intro h
    have hc : (node.predicate.isSome || decide (node.inlinePlanNodes.length > 0)) = true := by
      rcases h with h | h
      · simp [h]
      · have : 0 < node.inlinePlanNodes.length := List.length_pos.2 h
        simp [this]
    simp [initialised, hc, VertexScanExecutor.setTempOutputTable,
      VertexScanExecutor.resolveOutputTable]
  · rintro ⟨hp, hi⟩
    have hres : sourceTable node = some source := hsrc
    unfold sourceTable at hres
    cases hs : node.isSubQuery <;>
      simp [initialised, hp, hi, VertexScanExecutor.resolveOutputTable, sourceRef, hs] <;>
      simpa [hs] using hres

/-- Witness for C7: a base-table scan with a predicate gets a fresh temp
table named after the vertex table. -/
theorem p_init_outcomes_witness :
    ∃ ex source, sourceTable (exampleNode (some idAtLeast4) [] 1) = some source ∧
      (VertexScanExecutor.fresh localEngine (.vertexScan (exampleNode (some idAtLeast4) [] 1))).p_init
        (.vertexScan (exampleNode (some idAtLeast4) [] 1)) { memoryLimit := 0 } = .ok ex ∧
      ex.m_tmpOutputTable =
        some { name := "VERTEX", schema := { columnCount := 1 }, tuples := [] } :=
  let ⟨ex, source, h1, h2, _, _, h3, _⟩ :=
    (p_init_outcomes
      (VertexScanExecutor.fresh localEngine (.vertexScan (exampleNode (some idAtLeast4) [] 1)))
      { memoryLimit := 0 }).2.2.2 (exampleNode (some idAtLeast4) [] 1) (Or.inr rfl) (Or.inl rfl)
  ⟨ex, source, h1, h2, by
    have h4 := (h3 (Or.inl rfl)).1
    have h5 : source = exampleVertexTable := by
      have : sourceTable (exampleNode (some idAtLeast4) [] 1) = some exampleVertexTable := rfl
      rw [this] at h1
      exact (Option.some.inj h1).symm
    rw [h4, h5]
    rfl⟩

/-- Claim C9, evaluated at the failing input: on the coordinator site, when
the vertex-attribute fetch succeeds and the edge-attribute fetch fails,
`p_execute` dereferences the null result of the edge fetch (the second test
reads `out1`, not `out2`) and aborts, whereas the same scan completes with
output row 6 for the three other outcomes of the two fetches and on a site
that issues no fetch. -/
theorem p_execute_edgeFetchFailure :
    (exampleExecutor (coordinatorEngine true false)
      (exampleNode (some idAtLeast4) [limitNode 1 1] 1) none).p_execute [] =
        .error .nullDereference ∧
    (∃ exec, (exampleExecutor (coordinatorEngine true true)
      (exampleNode (some idAtLeast4) [limitNode 1 1] 1) none).p_execute [] = .ok exec ∧
        exec.executor.m_tmpOutputTable.map (fun t => t.tuples) = some [[.integer 6]]) ∧
    (∃ exec, (exampleExecutor (coordinatorEngine false true)
      (exampleNode (some idAtLeast4) [limitNode 1 1] 1) none).p_execute [] = .ok exec ∧
        exec.executor.m_tmpOutputTable.map (fun t => t.tuples) = some [[.integer 6]]) ∧
    (∃ exec, (exampleExecutor (coordinatorEngine false false)
      (exampleNode (some idAtLeast4) [limitNode 1 1] 1) none).p_execute [] = .ok exec ∧
        exec.executor.m_tmpOutputTable.map (fun t => t.tuples) = some [[.integer 6]]) ∧
    (∃ exec, (exampleExecutor localEngine
      (exampleNode (some idAtLeast4) [limitNode 1 1] 1) none).p_execute [] = .ok exec ∧
        exec.executor.m_tmpOutputTable.map (fun t => t.tuples) = some [[.integer 6]]) :=
  ⟨rfl, ⟨_, rfl, rfl⟩, ⟨_, rfl, rfl⟩, ⟨_, rfl, rfl⟩, ⟨_, rfl, rfl⟩⟩

/-- Claim C10: for every configuration on which `p_init` succeeded, with the
aggregation adapter bound only if an inline aggregation node is present,
whenever the test guarding the row loop of `p_execute` holds the temp output
table allocated by `p_init` is present, and no execution aborts on the
assertion `assert(m_tmpOutputTable)` of `p_execute` or of `outputTuple`. -/
theorem tmpOutputTable_present (self : VertexScanExecutor) (abstractNode : AbstractPlanNode)
    (limits : TempTableLimits) (ex : VertexScanExecutor) (node : VertexScanPlanNode)
    (adapter : Option AggregateExecutorBase)
    (hinit : self.p_init abstractNode limits = .ok ex)
    (hnode : ex.m_abstractNode = .vertexScan node)
    (hadapter : adapter.isSome = true → (getInlineAggregate node.inlinePlanNodes).isSome = true) :
    (generalPath node adapter = true → ex.m_tmpOutputTable.isSome = true) ∧
    ∀ params, ({ ex with m_aggExec := adapter } : VertexScanExecutor).p_execute params ≠
      .error .assertTmpOutputTable := by
  obtain ⟨node0, source, _, _, hex⟩ := p_init_ok_inv self abstractNode limits ex hinit
  have key : generalPath node adapter = true → ex.m_tmpOutputTable.isSome = true := by
    intro hpath
    subst hex
    by_cases hc : (node0.predicate.isSome || decide (node0.inlinePlanNodes.length > 0)) = true
    · simp [initialised, hc, VertexScanExecutor.setTempOutputTable]
    · exfalso
      have hp : node0.predicate = none := by
        cases h : node0.predicate with
        | none => rfl
        | some e => exact absurd (by simp [h]) hc
      have hi : node0.inlinePlanNodes = [] := by
        cases h : node0.inlinePlanNodes with
        | nil => rfl
        | cons a l => exact absurd (by simp [h]) hc
      have hinit2 : (initialised self node0 limits source).m_abstractNode =
          .vertexScan { node0 with outputTable := some (sourceRef node0) } := by
        unfold initialised
        rw [if_neg hc]
      rw [hinit2] at hnode
      have hn := AbstractPlanNode.vertexScan.inj hnode
      subst hn
      have ha : adapter = none := by
        cases adapter with
        | none => rfl
        | some a => simpa [hi, getInlineAggregate] using hadapter rfl
      subst ha
      simp [generalPath, hp, hi, getInlineProjection, getInlineLimit] at hpath
  refine ⟨key, fun params => p_execute_error _ params ?_⟩
  intro node1 hn1 hp1
  have hn2 : ex.m_abstractNode = .vertexScan node1 := hn1
  rw [hnode] at hn2
  cases hn2
  exact key hp1

/-- Witness for C10: a scan with an inline aggregation node only, initialised
by `p_init`. -/
theorem tmpOutputTable_present_witness :
    ∃ ex node,
      (VertexScanExecutor.fresh localEngine
        (.vertexScan (exampleNode none [.aggregate .hashAggregate] 1))).p_init
          (.vertexScan (exampleNode none [.aggregate .hashAggregate] 1)) { memoryLimit := 0 } = .ok ex ∧
      ex.m_abstractNode = .vertexScan node ∧
      generalPath node (some { kind := .hashAggregate }) = true ∧
      ex.m_tmpOutputTable.isSome = true :=
  ⟨_, _, rfl, rfl, rfl,
    (tmpOutputTable_present
      (VertexScanExecutor.fresh localEngine (.vertexScan (exampleNode none [.aggregate .hashAggregate] 1)))
      (.vertexScan (exampleNode none [.aggregate .hashAggregate] 1)) { memoryLimit := 0 } _ _
      (some { kind := .hashAggregate }) rfl rfl (fun _ => rfl)).1 rfl⟩

end voltdb
